import Mathlib

/-!
Shallow embedding of the stock_performance repository
(src/server.py and src/stock_performance.py) and proofs about it.

Numbers are modelled as exact rationals.  The one place where IEEE
behaviour matters — pandas division producing NaN/inf on a zero
denominator, followed by `fillna` — is modelled explicitly by the
`PandasVal` type below.
-/

namespace StockPerf

/-- Result of a pandas elementwise division: a finite value, an infinity
(`x / 0` with `x ≠ 0`), or NaN (`0 / 0`).  `fillna` replaces only NaN. -/
inductive PandasVal where
  | fin (q : ℚ)
  | posInf
  | negInf
  | nan
deriving DecidableEq, Repr

/-- Pandas/NumPy elementwise division of two finite values:
`a / 0` is NaN when `a = 0`, `±inf` otherwise; ordinary division else. -/
def pdiv (a b : ℚ) : PandasVal :=
  if b = 0 then
    if a = 0 then .nan else if a > 0 then .posInf else .negInf
  else .fin (a / b)

/-- `Series.fillna`: replace NaN by the given finite value, leave
everything else (finite values and infinities) unchanged. -/
def PandasVal.fillna (v : PandasVal) (d : ℚ) : PandasVal :=
  match v with
  | .nan => .fin d
  | x => x

/-- One OHLCV row.  The Python DataFrame columns are Open/High/Low/Close/
Volume plus the date index (already rendered to a string, as the handlers
do via `strftime`).  `Open` is a Lean keyword, hence `openPrice`. -/
structure Row where
  date : String
  openPrice : ℚ
  high : ℚ
  low : ℚ
  close : ℚ
  volume : ℚ
deriving DecidableEq, Repr

/-- A fetched series: the rows of the DataFrame in index order. -/
abbrev Series := List Row

/-- Per-row body of `calculate_buy_sell_volumes`:
`buy = Volume * (Close - Low) / (High - Low)` and
`sell = Volume * (High - Close) / (High - Low)`, each then passed through
`fillna(Volume / 2)` (src/server.py lines 17-26, identical in
src/stock_performance.py lines 16-25). -/
def buySellRow (r : Row) : PandasVal × PandasVal :=
  ((pdiv (r.volume * (r.close - r.low)) (r.high - r.low)).fillna (r.volume / 2),
   (pdiv (r.volume * (r.high - r.close)) (r.high - r.low)).fillna (r.volume / 2))

/-- `calculate_buy_sell_volumes(data)`: the columnar computation, returning
the buy-volume series and the sell-volume series. -/
def calculate_buy_sell_volumes (data : Series) : List PandasVal × List PandasVal :=
  (data.map (fun r => (buySellRow r).1), data.map (fun r => (buySellRow r).2))

/-- `valid_periods` from `validate_period` (both files, identical). -/
def valid_periods : List String :=
  ["1d", "5d", "1mo", "3mo", "6mo", "1y", "2y", "5y", "10y", "ytd", "max"]

/-- `valid_intervals` from `validate_interval` (both files, identical). -/
def valid_intervals : List String :=
  ["1m", "2m", "5m", "15m", "30m", "60m", "90m", "1h", "1d", "5d", "1wk", "1mo", "3mo"]

/-- `validate_period` (src/server.py lines 29-34, src/stock_performance.py
lines 144-149): return the period unchanged if it is in `valid_periods`,
otherwise raise `ValueError` with the rejected value and the allowed set. -/
def validate_period (period : String) : Except String String :=
  if period ∈ valid_periods then .ok period
  else .error ("Invalid period: " ++ period ++ ". Valid periods are: " ++
    String.intercalate ", " valid_periods)

/-- `validate_interval` (src/server.py lines 37-42, src/stock_performance.py
lines 152-157): same shape as `validate_period`. -/
def validate_interval (interval : String) : Except String String :=
  if interval ∈ valid_intervals then .ok interval
  else .error ("Invalid interval: " ++ interval ++ ". Valid intervals are: " ++
    String.intercalate ", " valid_intervals)

/-- Python `str.startswith`: a prefix test, here on the character
sequences of the two strings. -/
def startswith (s p : String) : Bool := p.data.isPrefixOf s.data

/-- Recursion for `pySplit`: walk the characters, cutting at every
separator; `cur` holds the current chunk reversed. -/
def pySplitAux (sep : Char) : List Char → List Char → List (List Char)
  | [], cur => [cur.reverse]
  | c :: rest, cur =>
    if c = sep then cur.reverse :: pySplitAux sep rest []
    else pySplitAux sep rest (c :: cur)

/-- Python `str.split(sep)` for a one-character separator (as used at
src/server.py line 54): cut at every separator occurrence; a string with
no separator yields a one-element list, the empty string yields `[""]`. -/
def pySplit (s : String) (sep : Char) : List String :=
  (pySplitAux sep s.data []).map (fun cs => String.mk cs)

/-- The part of an inbound HTTP request read by
`StockDataMiddleware.dispatch`: the URL path and the `stock`, `periods`
and `interval` query parameters (`none` models an absent parameter). -/
structure StockRequest where
  path : String
  stock : Option String
  periods : Option String
  interval : Option String
deriving DecidableEq, Repr

/-- A `JSONResponse(status_code=..., content={"detail": ...})`: the status
code and the string under the body's `"detail"` key (every error body in
src/server.py has exactly that one key). -/
structure Response where
  status : Nat
  detail : String
deriving DecidableEq, Repr

/-- The request state written by the middleware on success
(`request.state.stock_data` / `validated_periods` / `validated_interval`,
src/server.py lines 71-73).  `stock_data` is the Python dict in insertion
order. -/
structure RequestState where
  stock_data : List (String × Series)
  validated_periods : List String
  validated_interval : String
deriving DecidableEq

/-- Outcome of `StockDataMiddleware.dispatch`: either a short-circuiting
error response (`call_next` is never reached), or the request proceeds to
the downstream handler — with populated state (`some`) on the
`/performance` success path, untouched state (`none`) on other paths. -/
inductive DispatchOutcome where
  | shortCircuit (resp : Response)
  | downstream (state : Option RequestState)
deriving DecidableEq

/-- The external data source `yf.Ticker(t).history(period, interval)`,
an opaque collaborator: `.ok` is a returned DataFrame (possibly empty),
`.error` a raised exception with its message.  Fetch exceptions are
modelled as generic (non-`ValueError`) exceptions, which is how the
middleware's `except Exception` clause classifies upstream failures. -/
abbrev Fetch := String → String → String → Except String Series

/-- Python dict assignment `data[period] = stock_data`: overwrite in place
if the key exists, else append (insertion order preserved). -/
def dictInsert (d : List (String × Series)) (k : String) (v : Series) :
    List (String × Series) :=
  if k ∈ d.map Prod.fst then d.map (fun kv => if kv.1 = k then (k, v) else kv)
  else d ++ [(k, v)]

/-- The list comprehension `[validate_period(p) for p in periods]`
(src/server.py line 57): validate left to right, propagating the first
`ValueError`. -/
def validate_list (f : String → Except String String) :
    List String → Except String (List String)
  | [] => .ok []
  | p :: rest =>
    match f p with
    | .error e => .error e
    | .ok v =>
      match validate_list f rest with
      | .error e => .error e
      | .ok vs => .ok (v :: vs)

/-- The fetch loop of `dispatch` (src/server.py lines 60-69): fetch each
validated period in order into the dict; an empty DataFrame short-circuits
with a 404, a raised exception with a 500 (via the `except Exception`
clause, lines 76-77). -/
def fetchPeriods (fetch : Fetch) (stock interval : String) :
    List String → List (String × Series) → Except Response (List (String × Series))
  | [], acc => .ok acc
  | p :: rest, acc =>
    match fetch stock p interval with
    | .error e => .error ⟨500, "An error occurred: " ++ e⟩
    | .ok s =>
      if s.isEmpty then
        .error ⟨404, "No data available for " ++ stock ++ " with period " ++ p ++
          " and interval " ++ interval⟩
      else fetchPeriods fetch stock interval rest (dictInsert acc p s)

/-- `StockDataMiddleware.dispatch` (src/server.py lines 45-80).  Requests
under `/performance` are validated and prefetched; any failure returns the
error response without reaching `call_next`.  Other paths go straight
downstream.  The Python local bindings for `periods`/`interval` are
inlined here. -/
def dispatch (fetch : Fetch) (req : StockRequest) : DispatchOutcome :=
  if startswith req.path "/performance" then
    match req.stock with
    | none => .shortCircuit ⟨400, "Stock symbol is missing"⟩
    | some stock =>
      if stock = "" then .shortCircuit ⟨400, "Stock symbol is missing"⟩
      else
        match validate_list validate_period (pySplit (req.periods.getD "1y") ',') with
        | .error e => .shortCircuit ⟨400, e⟩
        | .ok validated_periods =>
          match validate_interval (req.interval.getD "1d") with
          | .error e => .shortCircuit ⟨400, e⟩
          | .ok validated_interval =>
            match fetchPeriods fetch stock validated_interval validated_periods [] with
            | .error resp => .shortCircuit resp
            | .ok data => .downstream (some ⟨data, validated_periods, validated_interval⟩)
  else .downstream none

/-- One period's entry in the `/performance/buy_sell_volume` response
body. -/
structure BuySellEntry where
  dates : List String
  buy_volume : List PandasVal
  sell_volume : List PandasVal
deriving DecidableEq

/-- `get_buy_sell_volume` (src/server.py lines 97-107): for each period in
the request state, the formatted date index plus the two derived volume
series. -/
def get_buy_sell_volume (st : RequestState) : List (String × BuySellEntry) :=
  st.stock_data.map (fun pr =>
    (pr.1, ⟨pr.2.map Row.date,
            (calculate_buy_sell_volumes pr.2).1,
            (calculate_buy_sell_volumes pr.2).2⟩))

/-- A one-row sample series used in concrete instances. -/
def sampleSeries : Series := [⟨"2024-01-02", 1, 3, 1, 2, 100⟩]

/-- A fetch stub whose every call returns `sampleSeries`. -/
def fetchOk : Fetch := fun _ _ _ => .ok sampleSeries

/-- A fetch stub whose every call returns an empty DataFrame. -/
def fetchEmpty : Fetch := fun _ _ _ => .ok []

/-- `GET /performance/total_volume?stock=AAA&periods=1y&interval=1d`. -/
def reqAAA : StockRequest :=
  ⟨"/performance/total_volume", some "AAA", some "1y", some "1d"⟩

/-- `GET /performance/buy_sell_volume?stock=AAA&periods=1y,2y`
(no interval parameter, so the default `1d` applies). -/
def reqTwoPeriods : StockRequest :=
  ⟨"/performance/buy_sell_volume", some "AAA", some "1y,2y", none⟩

/-- A `/performance` request missing the `stock` query parameter. -/
def reqNoStock : StockRequest :=
  ⟨"/performance/price", none, some "1y", some "1d"⟩

/-- `ensure_to_suffix` (src/stock_performance.py lines 139-141):
`ticker if '.' in ticker else f"{ticker}.TO"`; the containment test is on
the ticker's characters. -/
def ensure_to_suffix (ticker : String) : String :=
  if ticker.data.contains '.' then ticker else ticker ++ ".TO"

/-- One observable CLI action: a stdout line, a stderr line, a call to the
data source, or a chart file written by `plt.savefig`. -/
inductive CliEvent where
  | printed (s : String)
  | errPrinted (s : String)
  | fetched (ticker period interval : String)
  | savedPlot (filename : String)
deriving DecidableEq, Repr

/-- `save_plot(filename, output_dir)` (src/stock_performance.py lines
87-94): prefix the configured directory (`os.path.join` modelled as
slash-concatenation), save the figure, and report.  Directory creation is
a file-system side effect outside the model. -/
def save_plot (filename : String) (output_dir : Option String) : List CliEvent :=
  match output_dir with
  | some d => [.savedPlot (d ++ "/" ++ filename),
      .printed ("Graph saved as " ++ (d ++ "/" ++ filename))]
  | none => [.savedPlot filename, .printed ("Graph saved as " ++ filename)]

/-- `plot_price_volume(ticker, period, interval, output_dir)`
(src/stock_performance.py lines 97-115) as its trace of events: an empty
fetch prints the no-data message and returns; otherwise both charts are
saved and the row count reported.  A raised fetch exception propagates
(`.error`). -/
def plot_price_volume (fetch : Fetch) (ticker period interval : String)
    (output_dir : Option String) : Except String (List CliEvent) :=
  match fetch ticker period interval with
  | .error e => .error e
  | .ok data =>
    if data.isEmpty then
      .ok [.fetched ticker period interval,
        .printed ("No data available for " ++ ticker ++ " with period " ++ period ++
          " and interval " ++ interval)]
    else
      .ok ([.fetched ticker period interval] ++
        save_plot (ticker ++ "_" ++ period ++ "_" ++ interval ++ "_price_volume.png")
          output_dir ++
        save_plot (ticker ++ "_" ++ period ++ "_" ++ interval ++ "_buy_sell_volume.png")
          output_dir ++
        [.printed ("Data points for " ++ period ++ " with " ++ interval ++
          " interval: " ++ toString data.length)])

/-- The `for period in periods: plot_price_volume(...)` loop of `main`
(src/stock_performance.py lines 162-163), concatenating each call's
events; an exception propagates immediately. -/
def plot_all (fetch : Fetch) (ticker interval : String) (output_dir : Option String) :
    List String → Except String (List CliEvent)
  | [] => .ok []
  | p :: rest =>
    match plot_price_volume fetch ticker p interval output_dir with
    | .error e => .error e
    | .ok evs =>
      match plot_all fetch ticker interval output_dir rest with
      | .error e => .error e
      | .ok more => .ok (evs ++ more)

/-- `get_inception_info(ticker)` (src/stock_performance.py lines 118-125):
fetch the `max`/`1d` history; an empty history yields `(None, None)`.
`datetime.now()` is abstracted by `daysSince`, which maps the first row's
date to `(datetime.now().date() - inception_date).days`. -/
def get_inception_info (fetch : Fetch) (daysSince : String → Int) (ticker : String) :
    Except String (List CliEvent × Option String × Option Int) :=
  match fetch ticker "max" "1d" with
  | .error e => .error e
  | .ok [] => .ok ([.fetched ticker "max" "1d"], none, none)
  | .ok (r :: _) => .ok ([.fetched ticker "max" "1d"], some r.date, some (daysSince r.date))

/-- `print_inception_info` (src/stock_performance.py lines 128-136).
Python truthiness: the success branch requires both values present and a
nonzero day count (`0` is falsy); every other case prints the not-found
message. -/
def print_inception_info (ticker : String) (inception : Option String)
    (days : Option Int) : List CliEvent :=
  match inception, days with
  | some d, some n =>
    if n ≠ 0 then
      [.printed ("\n" ++ ticker ++ " inception date: " ++ d),
       .printed ("Days since inception: " ++ toString n)] ++
      (if n < 5 * 365 then
        [.printed ("Note: " ++ ticker ++ " has been trading for less than 5 years." ++
          " The 5-year graph may show incomplete data.")]
      else [])
    else
      [.printed ("No data found for " ++ ticker ++ ". Please check if the ticker is correct.")]
  | _, _ =>
    [.printed ("No data found for " ++ ticker ++ ". Please check if the ticker is correct.")]

/-- `main(ticker, output_dir, periods, interval)` (src/stock_performance.py
lines 160-165) as the trace of its events; any exception propagates. -/
def mainCli (fetch : Fetch) (daysSince : String → Int) (ticker : String)
    (output_dir : Option String) (periods : List String) (interval : String) :
    Except String (List CliEvent) :=
  match plot_all fetch (ensure_to_suffix ticker) interval output_dir periods with
  | .error e => .error e
  | .ok evs =>
    match get_inception_info fetch daysSince (ensure_to_suffix ticker) with
    | .error e => .error e
    | .ok (ievs, inception, days) =>
      .ok (evs ++ ievs ++ print_inception_info (ensure_to_suffix ticker) inception days)

/-- Result of one CLI invocation: the process exit code and the traced
events. -/
structure CliRun where
  exitCode : Nat
  events : List CliEvent
deriving DecidableEq, Repr

/-- The argparse default for `--periods` (src/stock_performance.py
line 175). -/
def default_periods : List String := ["1y", "3y", "5y"]

/-- The `__main__` block (src/stock_performance.py lines 168-191): resolve
the output directory, validate every period then the interval, run `main`,
and map a `ValueError` to exit code 1 with `Error: ...` on stderr, any
other exception to exit code 1 with `An unexpected error occurred: ...`.
On an exception the model keeps only the stderr line (stdout lines already
emitted before the exception are not tracked; no claim depends on them). -/
def runCli (fetch : Fetch) (daysSince : String → Int) (ticker : String)
    (output : String) (noOutputDir : Bool) (periods : List String)
    (interval : String) : CliRun :=
  match validate_list validate_period periods with
  | .error e => ⟨1, [.errPrinted ("Error: " ++ e)]⟩
  | .ok validated_periods =>
    match validate_interval interval with
    | .error e => ⟨1, [.errPrinted ("Error: " ++ e)]⟩
    | .ok validated_interval =>
      match mainCli fetch daysSince ticker
          (if noOutputDir then none else some output)
          validated_periods validated_interval with
      | .error e => ⟨1, [.errPrinted ("An unexpected error occurred: " ++ e)]⟩
      | .ok evs => ⟨0, evs⟩

end StockPerf

namespace StockPerf

/-- C1: for every OHLCV row with `high ≠ low`, `calculate_buy_sell_volumes`
returns at that row's position `buyVolume = volume * (close - low) / (high - low)`
and `sellVolume = volume * (high - close) / (high - low)`, and those two
quantities sum to `volume` (exactly, in rational arithmetic — the
floating-point tolerance of the claim). -/
theorem buy_sell_formula_and_sum (data : Series) (i : ℕ) (hi : i < data.length)
    (hne : data[i].high ≠ data[i].low) :
    (calculate_buy_sell_volumes data).1[i]? =
      some (.fin (data[i].volume * (data[i].close - data[i].low) /
        (data[i].high - data[i].low))) ∧
    (calculate_buy_sell_volumes data).2[i]? =
      some (.fin (data[i].volume * (data[i].high - data[i].close) /
        (data[i].high - data[i].low))) ∧
    data[i].volume * (data[i].close - data[i].low) / (data[i].high - data[i].low) +
      data[i].volume * (data[i].high - data[i].close) / (data[i].high - data[i].low) =
      data[i].volume := by
  have hd : data[i].high - data[i].low ≠ 0 := sub_ne_zero.mpr hne
  refine ⟨?_, ?_, ?_⟩
  · simp only [calculate_buy_sell_volumes, List.getElem?_map, List.getElem?_eq_getElem hi,
      Option.map_some', buySellRow, pdiv, if_neg hd, PandasVal.fillna]
  · simp only [calculate_buy_sell_volumes, List.getElem?_map, List.getElem?_eq_getElem hi,
      Option.map_some', buySellRow, pdiv, if_neg hd, PandasVal.fillna]
  · field_simp
    ring

/-- Concrete instance of `buy_sell_formula_and_sum`: a row with
open 1, high 3, low 1, close 2, volume 100 yields buy volume 50. -/
theorem buy_sell_formula_and_sum_witness :
    (calculate_buy_sell_volumes [⟨"2024-01-02", 1, 3, 1, 2, 100⟩]).1[0]? =
      some (.fin 50) := by
  have h := (buy_sell_formula_and_sum [⟨"2024-01-02", 1, 3, 1, 2, 100⟩] 0
    (by norm_num) (by norm_num)).1
  norm_num at h
  convert h using 3

/-- C2: for every well-formed OHLCV row (`low ≤ close ≤ high`) with
`high = low`, the computation does not produce a division error: both
formulas hit the `0 / 0 = NaN` case, `fillna` resolves each to the finite
value `volume / 2`, so buy volume and sell volume both equal `volume / 2`. -/
theorem buy_sell_degenerate (data : Series) (i : ℕ) (hi : i < data.length)
    (heq : data[i].high = data[i].low)
    (h1 : data[i].low ≤ data[i].close)
    (h2 : data[i].close ≤ data[i].high) :
    (calculate_buy_sell_volumes data).1[i]? = some (.fin (data[i].volume / 2)) ∧
    (calculate_buy_sell_volumes data).2[i]? = some (.fin (data[i].volume / 2)) := by
  have hclose : data[i].close = data[i].low := le_antisymm (heq ▸ h2) h1
  have hd : data[i].high - data[i].low = 0 := sub_eq_zero.mpr heq
  constructor
  · simp only [calculate_buy_sell_volumes, List.getElem?_map, List.getElem?_eq_getElem hi,
      Option.map_some', buySellRow, pdiv, hd, hclose, sub_self, mul_zero, if_pos rfl]
    simp [PandasVal.fillna]
  · simp only [calculate_buy_sell_volumes, List.getElem?_map, List.getElem?_eq_getElem hi,
      Option.map_some', buySellRow, pdiv, hd, hclose, heq, sub_self, mul_zero, if_pos rfl]
    simp [PandasVal.fillna]

/-- Concrete instance of `buy_sell_degenerate`: a flat row with all prices 5
and volume 100 yields buy volume 50 and sell volume 50. -/
theorem buy_sell_degenerate_witness :
    (calculate_buy_sell_volumes [⟨"2024-01-02", 5, 5, 5, 5, 100⟩]).1[0]? = some (.fin 50) ∧
    (calculate_buy_sell_volumes [⟨"2024-01-02", 5, 5, 5, 5, 100⟩]).2[0]? = some (.fin 50) := by
  have h := buy_sell_degenerate [⟨"2024-01-02", 5, 5, 5, 5, 100⟩] 0
    (by norm_num) (by norm_num) (by norm_num) (by norm_num)
  have h1 := h.1
  have h2 := h.2
  norm_num at h1 h2
  constructor
  · convert h1 using 3
  · convert h2 using 3

/-- The comma-join of `valid_periods`, as it appears in the error message. -/
theorem periods_joined :
    String.intercalate ", " valid_periods =
      "1d, 5d, 1mo, 3mo, 6mo, 1y, 2y, 5y, 10y, ytd, max" := by decide

/-- The comma-join of `valid_intervals`, as it appears in the error message. -/
theorem intervals_joined :
    String.intercalate ", " valid_intervals =
      "1m, 2m, 5m, 15m, 30m, 60m, 90m, 1h, 1d, 5d, 1wk, 1mo, 3mo" := by decide

/-- C3: `validate_period` returns its argument unchanged exactly on the 11
listed period tokens and otherwise raises a `ValueError` whose message
carries the rejected value and the full allowed set; `validate_interval`
does the same for the 13 listed interval tokens.  Membership is plain
string equality: case-sensitive, exact, no normalization. -/
theorem validators_exact (s : String) :
    (validate_period s = .ok s ↔
      s ∈ (["1d", "5d", "1mo", "3mo", "6mo", "1y", "2y", "5y", "10y", "ytd", "max"] : List String)) ∧
    (s ∉ (["1d", "5d", "1mo", "3mo", "6mo", "1y", "2y", "5y", "10y", "ytd", "max"] : List String) →
      validate_period s = .error ("Invalid period: " ++ s ++ ". Valid periods are: " ++
        "1d, 5d, 1mo, 3mo, 6mo, 1y, 2y, 5y, 10y, ytd, max")) ∧
    (validate_interval s = .ok s ↔
      s ∈ (["1m", "2m", "5m", "15m", "30m", "60m", "90m", "1h", "1d", "5d", "1wk", "1mo", "3mo"] : List String)) ∧
    (s ∉ (["1m", "2m", "5m", "15m", "30m", "60m", "90m", "1h", "1d", "5d", "1wk", "1mo", "3mo"] : List String) →
      validate_interval s = .error ("Invalid interval: " ++ s ++ ". Valid intervals are: " ++
        "1m, 2m, 5m, 15m, 30m, 60m, 90m, 1h, 1d, 5d, 1wk, 1mo, 3mo")) := by
  refine ⟨?_, ?_, ?_, ?_⟩
  · constructor
    · intro h
      by_contra hmem
      simp only [validate_period, valid_periods, if_neg hmem] at h
      exact Except.noConfusion h
    · intro hmem
      simp only [validate_period, valid_periods, if_pos hmem]
  · intro hmem
    have hmem2 : s ∉ valid_periods := hmem
    simp only [validate_period]
    rw [if_neg hmem2, periods_joined]
  · constructor
    · intro h
      by_contra hmem
      simp only [validate_interval, valid_intervals, if_neg hmem] at h
      exact Except.noConfusion h
    · intro hmem
      simp only [validate_interval, valid_intervals, if_pos hmem]
  · intro hmem
    have hmem2 : s ∉ valid_intervals := hmem
    simp only [validate_interval]
    rw [if_neg hmem2, intervals_joined]

/-- An entry of the dict after `dictInsert` is an old entry or the new
key-value pair. -/
theorem mem_dictInsert {d : List (String × Series)} {k : String} {v : Series}
    {pr : String × Series} (h : pr ∈ dictInsert d k v) : pr ∈ d ∨ pr = (k, v) := by
  by_cases hk : k ∈ d.map Prod.fst
  · rw [dictInsert, if_pos hk] at h
    simp only [List.mem_map] at h
    obtain ⟨kv, hkv, heq⟩ := h
    by_cases hkv1 : kv.1 = k
    · right
      rw [if_pos hkv1] at heq
      exact heq.symm
    · left
      rw [if_neg hkv1] at heq
      exact heq ▸ hkv
  · rw [dictInsert, if_neg hk] at h
    rcases List.mem_append.mp h with h1 | h1
    · exact Or.inl h1
    · right
      simpa using h1

/-- `dictInsert` makes the inserted pair an entry. -/
theorem dictInsert_self (d : List (String × Series)) (k : String) (v : Series) :
    (k, v) ∈ dictInsert d k v := by
  by_cases hk : k ∈ d.map Prod.fst
  · rw [dictInsert, if_pos hk]
    obtain ⟨kv, hkv, hfst⟩ := List.mem_map.mp hk
    exact List.mem_map.mpr ⟨kv, hkv, by rw [if_pos hfst]⟩
  · rw [dictInsert, if_neg hk]
    simp

/-- `dictInsert` keeps every existing key present. -/
theorem dictInsert_keys_mono {d : List (String × Series)} {p : String}
    (k : String) (v : Series) (h : ∃ sr, (p, sr) ∈ d) :
    ∃ sr, (p, sr) ∈ dictInsert d k v := by
  by_cases hpk : p = k
  · exact ⟨v, hpk ▸ dictInsert_self d k v⟩
  · obtain ⟨sr, hsr⟩ := h
    by_cases hk : k ∈ d.map Prod.fst
    · refine ⟨sr, ?_⟩
      rw [dictInsert, if_pos hk]
      exact List.mem_map.mpr ⟨(p, sr), hsr, by simp [hpk]⟩
    · refine ⟨sr, ?_⟩
      rw [dictInsert, if_neg hk]
      exact List.mem_append_left _ hsr

/-- Inserting a fresh key appends the pair. -/
theorem dictInsert_of_fresh {d : List (String × Series)} {k : String}
    (v : Series) (h : k ∉ d.map Prod.fst) : dictInsert d k v = d ++ [(k, v)] := by
  rw [dictInsert, if_neg h]

/-- A list of valid periods validates to itself (the comprehension at
src/server.py line 57 succeeds). -/
theorem validate_list_ok (l : List String) (h : ∀ q ∈ l, q ∈ valid_periods) :
    validate_list validate_period l = .ok l := by
  induction l with
  | nil => rfl
  | cons p rest ih =>
    have hp : validate_period p = .ok p := by
      simp [validate_period, h p (List.mem_cons_self p rest)]
    simp only [validate_list, hp, ih (fun q hq => h q (List.mem_cons_of_mem p hq))]

/-- A valid interval validates to itself. -/
theorem validate_interval_ok {i : String} (h : i ∈ valid_intervals) :
    validate_interval i = .ok i := by
  simp [validate_interval, h]

/-- Inversion: a successful `validate_interval` returned its input, which
is a valid token. -/
theorem validate_interval_ok_inv {i v : String}
    (h : validate_interval i = .ok v) : v = i ∧ i ∈ valid_intervals := by
  by_cases hm : i ∈ valid_intervals
  · simp only [validate_interval, if_pos hm] at h
    injection h with h1
    exact ⟨h1.symm, hm⟩
  · simp only [validate_interval, if_neg hm] at h
    exact Except.noConfusion h

/-- Every error response of the fetch loop carries status 404 or 500. -/
theorem fetchPeriods_error_status (fetch : Fetch) (stock interval : String) :
    ∀ (ps : List String) (acc : List (String × Series)) (resp : Response),
      fetchPeriods fetch stock interval ps acc = .error resp →
      resp.status = 404 ∨ resp.status = 500 := by
  intro ps
  induction ps with
  | nil =>
    intro acc resp h
    simp only [fetchPeriods] at h
    exact Except.noConfusion h
  | cons p rest ih =>
    intro acc resp h
    simp only [fetchPeriods] at h
    cases hf : fetch stock p interval with
    | error e =>
      simp only [hf] at h
      injection h with h1
      right
      rw [← h1]
    | ok s =>
      simp only [hf] at h
      by_cases he : s.isEmpty = true
      · rw [if_pos he] at h
        injection h with h1
        left
        rw [← h1]
      · rw [if_neg he] at h
        exact ih _ _ h

/-- Every entry of a successfully filled dict came back from a successful,
nonempty fetch of its key, provided the entries of the starting dict did. -/
theorem fetchPeriods_entries (fetch : Fetch) (stock interval : String) :
    ∀ (ps : List String) (acc d : List (String × Series)),
      fetchPeriods fetch stock interval ps acc = .ok d →
      (∀ pr ∈ acc, fetch stock pr.1 interval = .ok pr.2 ∧ pr.2 ≠ []) →
      ∀ pr ∈ d, fetch stock pr.1 interval = .ok pr.2 ∧ pr.2 ≠ [] := by
  intro ps
  induction ps with
  | nil =>
    intro acc d h hacc
    simp only [fetchPeriods] at h
    injection h with h1
    exact h1 ▸ hacc
  | cons p rest ih =>
    intro acc d h hacc
    simp only [fetchPeriods] at h
    cases hf : fetch stock p interval with
    | error e =>
      simp only [hf] at h
      exact Except.noConfusion h
    | ok s =>
      simp only [hf] at h
      by_cases he : s.isEmpty = true
      · rw [if_pos he] at h
        exact Except.noConfusion h
      · rw [if_neg he] at h
        refine ih _ _ h ?_
        intro pr hpr
        rcases mem_dictInsert hpr with h1 | h1
        · exact hacc pr h1
        · rw [h1]
          refine ⟨hf, fun hnil => he ?_⟩
          have hs : s = [] := hnil
          rw [hs]
          rfl

/-- The fetch loop never drops a key of the starting dict. -/
theorem fetchPeriods_mono (fetch : Fetch) (stock interval : String) :
    ∀ (ps : List String) (acc d : List (String × Series)) (p : String),
      fetchPeriods fetch stock interval ps acc = .ok d →
      (∃ sr, (p, sr) ∈ acc) → ∃ sr, (p, sr) ∈ d := by
  intro ps
  induction ps with
  | nil =>
    intro acc d p h hp
    simp only [fetchPeriods] at h
    injection h with h1
    exact h1 ▸ hp
  | cons q rest ih =>
    intro acc d p h hp
    simp only [fetchPeriods] at h
    cases hf : fetch stock q interval with
    | error e =>
      simp only [hf] at h
      exact Except.noConfusion h
    | ok s =>
      simp only [hf] at h
      by_cases he : s.isEmpty = true
      · rw [if_pos he] at h
        exact Except.noConfusion h
      · rw [if_neg he] at h
        exact ih _ _ p h (dictInsert_keys_mono q s hp)

/-- After a successful fetch loop, every requested period has an entry. -/
theorem fetchPeriods_covers (fetch : Fetch) (stock interval : String) :
    ∀ (ps : List String) (acc d : List (String × Series)),
      fetchPeriods fetch stock interval ps acc = .ok d →
      ∀ p ∈ ps, ∃ sr, (p, sr) ∈ d := by
  intro ps
  induction ps with
  | nil =>
    intro acc d _ p hp
    exact absurd hp (List.not_mem_nil p)
  | cons q rest ih =>
    intro acc d h p hp
    simp only [fetchPeriods] at h
    cases hf : fetch stock q interval with
    | error e =>
      simp only [hf] at h
      exact Except.noConfusion h
    | ok s =>
      simp only [hf] at h
      by_cases he : s.isEmpty = true
      · rw [if_pos he] at h
        exact Except.noConfusion h
      · rw [if_neg he] at h
        rcases List.mem_cons.mp hp with h1 | h1
        · exact fetchPeriods_mono fetch stock interval rest _ d p h
            ⟨s, h1 ▸ dictInsert_self acc q s⟩
        · exact ih _ _ h p h1

/-- When every period fetches a nonempty series and the periods are
distinct and fresh for the dict, the loop succeeds and the dict keys are
the starting keys followed by the periods, in order. -/
theorem fetchPeriods_nodup_keys (fetch : Fetch) (stock interval : String) :
    ∀ (ps : List String) (acc : List (String × Series)),
      (∀ q ∈ ps, ∃ sr, fetch stock q interval = .ok sr ∧ sr ≠ []) →
      ps.Nodup → (∀ q ∈ ps, q ∉ acc.map Prod.fst) →
      ∃ d, fetchPeriods fetch stock interval ps acc = .ok d ∧
        d.map Prod.fst = acc.map Prod.fst ++ ps := by
  intro ps
  induction ps with
  | nil =>
    intro acc _ _ _
    exact ⟨acc, rfl, by simp⟩
  | cons p rest ih =>
    intro acc hok hnodup hfresh
    obtain ⟨sr, hf, hne⟩ := hok p (List.mem_cons_self p rest)
    have he : ¬(sr.isEmpty = true) := by
      cases sr with
      | nil => exact absurd rfl hne
      | cons a l => simp
    have hins : dictInsert acc p sr = acc ++ [(p, sr)] :=
      dictInsert_of_fresh sr (hfresh p (List.mem_cons_self p rest))
    obtain ⟨d, hd, hkeys⟩ := ih (dictInsert acc p sr)
      (fun q hq => hok q (List.mem_cons_of_mem p hq))
      (List.Nodup.of_cons hnodup)
      (by
        intro q hq
        rw [hins]
        simp only [List.map_append, List.mem_append]
        rintro (h1 | h1)
        · exact hfresh q (List.mem_cons_of_mem p hq) h1
        · simp only [List.map_cons, List.map_nil, List.mem_singleton] at h1
          rw [h1] at hq
          exact (List.nodup_cons.mp hnodup).1 hq)
    refine ⟨d, ?_, ?_⟩
    · simp only [fetchPeriods, hf, if_neg he]
      exact hd
    · rw [hkeys, hins]
      simp

/-- A prefix of periods that all fetch nonempty series is consumed by the
loop, leaving the loop running on the remaining periods (with some
accumulated dict). -/
theorem fetchPeriods_skip_prefix (fetch : Fetch) (stock interval : String) :
    ∀ (pre : List String) (acc : List (String × Series)) (rest : List String),
      (∀ q ∈ pre, ∃ sr, fetch stock q interval = .ok sr ∧ sr ≠ []) →
      ∃ acc2, fetchPeriods fetch stock interval (pre ++ rest) acc =
        fetchPeriods fetch stock interval rest acc2 := by
  intro pre
  induction pre with
  | nil =>
    intro acc rest _
    exact ⟨acc, by simp⟩
  | cons q pre2 ih =>
    intro acc rest hpre
    obtain ⟨sr, hf, hne⟩ := hpre q (List.mem_cons_self q pre2)
    have he : ¬(sr.isEmpty = true) := by
      cases sr with
      | nil => exact absurd rfl hne
      | cons a l => simp
    obtain ⟨acc2, h2⟩ := ih (dictInsert acc q sr) rest
      (fun r hr => hpre r (List.mem_cons_of_mem q hr))
    refine ⟨acc2, ?_⟩
    simp only [List.cons_append, fetchPeriods, hf, if_neg he]
    exact h2

/-- Concrete instances of `validators_exact`: "1y" is accepted unchanged,
"1yr" is rejected with the full allowed-set message, and "2d" is rejected
as an interval. -/
theorem validators_exact_witness :
    validate_period "1y" = .ok "1y" ∧
    validate_period "1yr" = .error ("Invalid period: " ++ "1yr" ++ ". Valid periods are: " ++
      "1d, 5d, 1mo, 3mo, 6mo, 1y, 2y, 5y, 10y, ytd, max") ∧
    validate_interval "2d" = .error ("Invalid interval: " ++ "2d" ++ ". Valid intervals are: " ++
      "1m, 2m, 5m, 15m, 30m, 60m, 90m, 1h, 1d, 5d, 1wk, 1mo, 3mo") :=
  ⟨(validators_exact "1y").1.mpr (by decide),
   (validators_exact "1yr").2.1 (by decide),
   (validators_exact "2d").2.2.2 (by decide)⟩

/-- C4: for every request under the `/performance` path prefix, `dispatch`
either returns an error response (status 400, 404 or 500) — the
`shortCircuit` outcome, which by construction never reaches the downstream
handler — or passes the request downstream with the state populated:
every stored series was fetched successfully and nonempty for its period
with the stored interval, every validated period has a stored series, and
the stored interval is the validated one. -/
theorem dispatch_cases (fetch : Fetch) (req : StockRequest)
    (hp : startswith req.path "/performance" = true) :
    (∃ resp, dispatch fetch req = .shortCircuit resp ∧
      (resp.status = 400 ∨ resp.status = 404 ∨ resp.status = 500)) ∨
    (∃ st s, dispatch fetch req = .downstream (some st) ∧
      req.stock = some s ∧
      validate_interval st.validated_interval = .ok st.validated_interval ∧
      (∀ pr ∈ st.stock_data,
        fetch s pr.1 st.validated_interval = .ok pr.2 ∧ pr.2 ≠ []) ∧
      (∀ p ∈ st.validated_periods, ∃ sr, (p, sr) ∈ st.stock_data)) := by
  cases hstock : req.stock with
  | none =>
    left
    exact ⟨⟨400, "Stock symbol is missing"⟩,
      by simp only [dispatch, if_pos hp, hstock], Or.inl rfl⟩
  | some s =>
    by_cases hs : s = ""
    · left
      refine ⟨⟨400, "Stock symbol is missing"⟩, ?_, Or.inl rfl⟩
      simp [dispatch, if_pos hp, hstock, hs]
    · cases hvl : validate_list validate_period (pySplit (req.periods.getD "1y") ',') with
      | error e =>
        left
        exact ⟨⟨400, e⟩,
          by simp only [dispatch, if_pos hp, hstock, if_neg hs, hvl], Or.inl rfl⟩
      | ok vps =>
        cases hvi : validate_interval (req.interval.getD "1d") with
        | error e =>
          left
          exact ⟨⟨400, e⟩,
            by simp only [dispatch, if_pos hp, hstock, if_neg hs, hvl, hvi], Or.inl rfl⟩
        | ok viv =>
          cases hfp : fetchPeriods fetch s viv vps [] with
          | error resp =>
            left
            exact ⟨resp,
              by simp only [dispatch, if_pos hp, hstock, if_neg hs, hvl, hvi, hfp],
              Or.inr (fetchPeriods_error_status fetch s viv vps [] resp hfp)⟩
          | ok d =>
            right
            obtain ⟨hviv_eq, hviv_mem⟩ := validate_interval_ok_inv hvi
            have hviv2 : viv ∈ valid_intervals := by
              rw [hviv_eq]
              exact hviv_mem
            refine ⟨⟨d, vps, viv⟩, s,
              by simp only [dispatch, if_pos hp, hstock, if_neg hs, hvl, hvi, hfp],
              rfl, validate_interval_ok hviv2, ?_, ?_⟩
            · exact fetchPeriods_entries fetch s viv vps [] d hfp
                (fun pr hpr => absurd hpr (List.not_mem_nil pr))
            · exact fetchPeriods_covers fetch s viv vps [] d hfp

/-- Concrete instance of `dispatch_cases`: the sample request through the
always-successful fetch stub. -/
theorem dispatch_cases_witness :
    (∃ resp, dispatch fetchOk reqAAA = .shortCircuit resp ∧
      (resp.status = 400 ∨ resp.status = 404 ∨ resp.status = 500)) ∨
    (∃ st s, dispatch fetchOk reqAAA = .downstream (some st) ∧
      reqAAA.stock = some s ∧
      validate_interval st.validated_interval = .ok st.validated_interval ∧
      (∀ pr ∈ st.stock_data,
        fetchOk s pr.1 st.validated_interval = .ok pr.2 ∧ pr.2 ≠ []) ∧
      (∀ p ∈ st.validated_periods, ∃ sr, (p, sr) ∈ st.stock_data)) :=
  dispatch_cases fetchOk reqAAA (by decide)

/-- C5: under `/performance`, with a present stock symbol, every period
valid, the interval valid, and all periods before `p` fetching nonempty
series: if the fetch for `p` returns an empty series the response is 404
with a body naming the ticker, the period and the interval, while if that
fetch raises instead, the response is 500 — not-found is distinct from a
transport error. -/
theorem empty_series_404 (fetch : Fetch) (req : StockRequest) (s : String)
    (pre : List String) (p : String) (rest : List String) (iv : String)
    (hpath : startswith req.path "/performance" = true)
    (hstock : req.stock = some s) (hs : s ≠ "")
    (hsplit : pySplit (req.periods.getD "1y") ',' = pre ++ p :: rest)
    (hvalid : ∀ q ∈ pre ++ p :: rest, q ∈ valid_periods)
    (hiv : req.interval.getD "1d" = iv) (hivv : iv ∈ valid_intervals)
    (hpre : ∀ q ∈ pre, ∃ sr, fetch s q iv = .ok sr ∧ sr ≠ []) :
    (fetch s p iv = .ok [] →
      dispatch fetch req = .shortCircuit ⟨404,
        "No data available for " ++ s ++ " with period " ++ p ++
          " and interval " ++ iv⟩) ∧
    (∀ e, fetch s p iv = .error e →
      dispatch fetch req = .shortCircuit ⟨500, "An error occurred: " ++ e⟩) := by
  obtain ⟨acc2, hskip⟩ := fetchPeriods_skip_prefix fetch s iv pre [] (p :: rest) hpre
  constructor
  · intro hfe
    have h404 : fetchPeriods fetch s iv (pre ++ p :: rest) [] = .error ⟨404,
        "No data available for " ++ s ++ " with period " ++ p ++
          " and interval " ++ iv⟩ := by
      rw [hskip]
      simp [fetchPeriods, hfe]
    simp only [dispatch, if_pos hpath, hstock, if_neg hs, hsplit, hiv,
      validate_list_ok _ hvalid, validate_interval_ok hivv, h404]
  · intro e hfe
    have h500 : fetchPeriods fetch s iv (pre ++ p :: rest) [] =
        .error ⟨500, "An error occurred: " ++ e⟩ := by
      rw [hskip]
      simp [fetchPeriods, hfe]
    simp only [dispatch, if_pos hpath, hstock, if_neg hs, hsplit, hiv,
      validate_list_ok _ hvalid, validate_interval_ok hivv, h500]

/-- Concrete instance of `empty_series_404`: stock AAA, period 1y,
interval 1d with an empty upstream series yields the 404 of the claim. -/
theorem empty_series_404_witness :
    dispatch fetchEmpty reqAAA = .shortCircuit ⟨404,
      "No data available for " ++ "AAA" ++ " with period " ++ "1y" ++
        " and interval " ++ "1d"⟩ :=
  (empty_series_404 fetchEmpty reqAAA "AAA" [] "1y" [] "1d" (by decide) rfl
    (by decide) rfl (by decide) rfl (by decide)
    (fun q hq => absurd hq (List.not_mem_nil q))).1 rfl

/-- C6: a `/performance` request whose query string lacks a nonempty
`stock` parameter gets status 400 with body
`{"detail": "Stock symbol is missing"}` (the `if not stock` guard catches
both an absent and an empty parameter). -/
theorem missing_stock_400 (fetch : Fetch) (req : StockRequest)
    (hpath : startswith req.path "/performance" = true)
    (hstock : req.stock = none ∨ req.stock = some "") :
    dispatch fetch req = .shortCircuit ⟨400, "Stock symbol is missing"⟩ := by
  rcases hstock with h | h <;> simp [dispatch, hpath, h]

/-- Concrete instance of `missing_stock_400`: the sample request with no
`stock` parameter. -/
theorem missing_stock_400_witness :
    dispatch fetchOk reqNoStock = .shortCircuit ⟨400, "Stock symbol is missing"⟩ :=
  missing_stock_400 fetchOk reqNoStock (by decide) (Or.inl rfl)

/-- C7: a successful `/performance/buy_sell_volume` request with distinct
comma-separated periods produces a body whose top-level keys are exactly
the requested periods, in order, and each period's entry carries
equal-length `dates`, `buy_volume` and `sell_volume` arrays. -/
theorem buy_sell_view_shape (fetch : Fetch) (req : StockRequest) (s : String)
    (ps : List String) (iv : String)
    (hpath : startswith req.path "/performance" = true)
    (hstock : req.stock = some s) (hs : s ≠ "")
    (hsplit : pySplit (req.periods.getD "1y") ',' = ps)
    (hvalid : ∀ q ∈ ps, q ∈ valid_periods)
    (hnodup : ps.Nodup)
    (hiv : req.interval.getD "1d" = iv) (hivv : iv ∈ valid_intervals)
    (hfetch : ∀ q ∈ ps, ∃ sr, fetch s q iv = .ok sr ∧ sr ≠ []) :
    ∃ st, dispatch fetch req = .downstream (some st) ∧
      (get_buy_sell_volume st).map Prod.fst = ps ∧
      ∀ pr ∈ get_buy_sell_volume st,
        pr.2.dates.length = pr.2.buy_volume.length ∧
        pr.2.buy_volume.length = pr.2.sell_volume.length := by
  obtain ⟨d, hd, hkeys⟩ :=
    fetchPeriods_nodup_keys fetch s iv ps [] hfetch hnodup (by simp)
  refine ⟨⟨d, ps, iv⟩, ?_, ?_, ?_⟩
  · simp only [dispatch, if_pos hpath, hstock, if_neg hs, hsplit, hiv,
      validate_list_ok _ hvalid, validate_interval_ok hivv, hd]
  · have hfst : (get_buy_sell_volume ⟨d, ps, iv⟩).map Prod.fst = d.map Prod.fst := by
      simp [get_buy_sell_volume, List.map_map, Function.comp]
    rw [hfst, hkeys]
    simp
  · intro pr hpr
    simp only [get_buy_sell_volume, List.mem_map] at hpr
    obtain ⟨kv, _, heq⟩ := hpr
    rw [← heq]
    simp [calculate_buy_sell_volumes]

/-- Concrete instance of `buy_sell_view_shape`: periods `1y,2y` with the
always-successful fetch stub yields keys exactly `["1y", "2y"]`. -/
theorem buy_sell_view_shape_witness :
    ∃ st, dispatch fetchOk reqTwoPeriods = .downstream (some st) ∧
      (get_buy_sell_volume st).map Prod.fst = ["1y", "2y"] ∧
      ∀ pr ∈ get_buy_sell_volume st,
        pr.2.dates.length = pr.2.buy_volume.length ∧
        pr.2.buy_volume.length = pr.2.sell_volume.length :=
  buy_sell_view_shape fetchOk reqTwoPeriods "AAA" ["1y", "2y"] "1d"
    (by decide) rfl (by decide) rfl (by decide) (by decide) rfl (by decide)
    (fun q _ => ⟨sampleSeries, rfl, by simp [sampleSeries]⟩)

/-- `save_plot` never records a fetch. -/
theorem save_plot_no_fetched (fn : String) (od : Option String) (a b c : String) :
    CliEvent.fetched a b c ∉ save_plot fn od := by
  cases od <;> simp [save_plot]

/-- Every fetch recorded by `plot_price_volume` uses its ticker argument. -/
theorem plot_price_volume_fetched {fetch : Fetch} {t p i : String}
    {od : Option String} {evs : List CliEvent}
    (h : plot_price_volume fetch t p i od = .ok evs) :
    ∀ a b c, CliEvent.fetched a b c ∈ evs → a = t := by
  intro a b c hmem
  cases hf : fetch t p i with
  | error e =>
    simp only [plot_price_volume, hf] at h
    exact Except.noConfusion h
  | ok data =>
    simp only [plot_price_volume, hf] at h
    by_cases he : data.isEmpty = true
    · rw [if_pos he] at h
      injection h with h1
      rw [← h1] at hmem
      simp at hmem
      exact hmem.1
    · rw [if_neg he] at h
      injection h with h1
      rw [← h1] at hmem
      rcases List.mem_append.mp hmem with h2 | h2
      · rcases List.mem_append.mp h2 with h3 | h3
        · rcases List.mem_append.mp h3 with h4 | h4
          · simp at h4
            exact h4.1
          · exact absurd h4 (save_plot_no_fetched _ od a b c)
        · exact absurd h3 (save_plot_no_fetched _ od a b c)
      · simp at h2

/-- Every fetch recorded by the plotting loop uses its ticker argument. -/
theorem plot_all_fetched {fetch : Fetch} {t i : String} {od : Option String} :
    ∀ {ps : List String} {evs : List CliEvent},
      plot_all fetch t i od ps = .ok evs →
      ∀ a b c, CliEvent.fetched a b c ∈ evs → a = t := by
  intro ps
  induction ps with
  | nil =>
    intro evs h a b c hmem
    simp only [plot_all] at h
    injection h with h1
    rw [← h1] at hmem
    simp at hmem
  | cons q rest ih =>
    intro evs h a b c hmem
    simp only [plot_all] at h
    cases hq : plot_price_volume fetch t q i od with
    | error e =>
      simp only [hq] at h
      exact Except.noConfusion h
    | ok pevs =>
      simp only [hq] at h
      cases hr : plot_all fetch t i od rest with
      | error e =>
        simp only [hr] at h
        exact Except.noConfusion h
      | ok more =>
        simp only [hr] at h
        injection h with h1
        rw [← h1] at hmem
        rcases List.mem_append.mp hmem with h2 | h2
        · exact plot_price_volume_fetched hq a b c h2
        · exact ih hr a b c h2

/-- `print_inception_info` never records a fetch. -/
theorem print_inception_no_fetched (t : String) (inc : Option String)
    (days : Option Int) (a b c : String) :
    CliEvent.fetched a b c ∉ print_inception_info t inc days := by
  cases inc with
  | none => simp [print_inception_info]
  | some d =>
    cases days with
    | none => simp [print_inception_info]
    | some n =>
      simp only [print_inception_info]
      by_cases hn : n ≠ 0
      · rw [if_pos hn]
        by_cases h5 : n < 5 * 365
        · rw [if_pos h5]
          simp
        · rw [if_neg h5]
          simp
      · rw [if_neg hn]
        simp

/-- Every fetch recorded by `get_inception_info` uses its ticker argument. -/
theorem get_inception_fetched {fetch : Fetch} {daysSince : String → Int} {t : String}
    {out : List CliEvent × Option String × Option Int}
    (h : get_inception_info fetch daysSince t = .ok out) :
    ∀ a b c, CliEvent.fetched a b c ∈ out.1 → a = t := by
  intro a b c hmem
  cases hf : fetch t "max" "1d" with
  | error e =>
    simp only [get_inception_info, hf] at h
    exact Except.noConfusion h
  | ok data =>
    cases data with
    | nil =>
      simp only [get_inception_info, hf] at h
      injection h with h1
      rw [← h1] at hmem
      simp at hmem
      exact hmem.1
    | cons r rs =>
      simp only [get_inception_info, hf] at h
      injection h with h1
      rw [← h1] at hmem
      simp at hmem
      exact hmem.1

/-- Every fetch recorded by a successful `main` run uses the suffixed
ticker. -/
theorem mainCli_fetched {fetch : Fetch} {daysSince : String → Int}
    {ticker : String} {od : Option String} {ps : List String} {iv : String}
    {evs : List CliEvent}
    (h : mainCli fetch daysSince ticker od ps iv = .ok evs) :
    ∀ a b c, CliEvent.fetched a b c ∈ evs → a = ensure_to_suffix ticker := by
  intro a b c hmem
  cases hpl : plot_all fetch (ensure_to_suffix ticker) iv od ps with
  | error e =>
    simp only [mainCli, hpl] at h
    exact Except.noConfusion h
  | ok pevs =>
    simp only [mainCli, hpl] at h
    cases hic : get_inception_info fetch daysSince (ensure_to_suffix ticker) with
    | error e =>
      simp only [hic] at h
      exact Except.noConfusion h
    | ok out =>
      obtain ⟨ievs, inc, days⟩ := out
      simp only [hic] at h
      injection h with h1
      rw [← h1] at hmem
      rcases List.mem_append.mp hmem with h2 | h2
      · rcases List.mem_append.mp h2 with h3 | h3
        · exact plot_all_fetched hpl a b c h3
        · exact get_inception_fetched hic a b c h3
      · exact absurd h2 (print_inception_no_fetched _ inc days a b c)

/-- C8: `ensure_to_suffix` suffixes ".TO" exactly to tickers without a
dot-suffix and leaves the others unchanged — "XEQT" becomes "XEQT.TO",
"VOO.US" stays — and the transformation happens before any fetch: every
fetch in a successful `main` run uses the suffixed ticker. -/
theorem ensure_to_suffix_spec (t : String) :
    (¬t.data.contains '.' = true → ensure_to_suffix t = t ++ ".TO") ∧
    (t.data.contains '.' = true → ensure_to_suffix t = t) ∧
    ensure_to_suffix "XEQT" = "XEQT.TO" ∧
    ensure_to_suffix "VOO.US" = "VOO.US" ∧
    (∀ (fetch : Fetch) (daysSince : String → Int) (od : Option String)
      (ps : List String) (iv : String) (evs : List CliEvent),
      mainCli fetch daysSince t od ps iv = .ok evs →
      ∀ a b c, CliEvent.fetched a b c ∈ evs → a = ensure_to_suffix t) := by
  refine ⟨?_, ?_, by decide, by decide, ?_⟩
  · intro h
    simp only [ensure_to_suffix]
    rw [if_neg h]
  · intro h
    simp only [ensure_to_suffix]
    rw [if_pos h]
  · intro fetch daysSince od ps iv evs h a b c hmem
    exact mainCli_fetched h a b c hmem

/-- Concrete instances of `ensure_to_suffix_spec` at the claim's two
example tickers. -/
theorem ensure_to_suffix_spec_witness :
    ensure_to_suffix "XEQT" = "XEQT" ++ ".TO" ∧
    ensure_to_suffix "VOO.US" = "VOO.US" :=
  ⟨(ensure_to_suffix_spec "XEQT").1 (by decide),
   (ensure_to_suffix_spec "VOO.US").2.1 (by decide)⟩

/-- A successful fetch makes `plot_price_volume` succeed (either branch). -/
theorem plot_ok_of_fetch_ok {fetch : Fetch} {t q i : String} (od : Option String)
    {sr : Series} (hf : fetch t q i = .ok sr) :
    ∃ evs, plot_price_volume fetch t q i od = .ok evs := by
  simp only [plot_price_volume, hf]
  by_cases he : sr.isEmpty = true
  · rw [if_pos he]
    exact ⟨_, rfl⟩
  · rw [if_neg he]
    exact ⟨_, rfl⟩

/-- When every period's plot succeeds, the loop succeeds and each call's
events appear in the accumulated trace. -/
theorem plot_all_ok (fetch : Fetch) (t i : String) (od : Option String) :
    ∀ (ps : List String),
      (∀ q ∈ ps, ∃ evs, plot_price_volume fetch t q i od = .ok evs) →
      ∃ evs, plot_all fetch t i od ps = .ok evs ∧
        ∀ q ∈ ps, ∃ pevs, plot_price_volume fetch t q i od = .ok pevs ∧
          ∀ e ∈ pevs, e ∈ evs := by
  intro ps
  induction ps with
  | nil =>
    intro _
    exact ⟨[], rfl, fun q hq => absurd hq (List.not_mem_nil q)⟩
  | cons q rest ih =>
    intro hall
    obtain ⟨pevs, hq⟩ := hall q (List.mem_cons_self q rest)
    obtain ⟨evs2, h2, hprop⟩ := ih (fun r hr => hall r (List.mem_cons_of_mem q hr))
    refine ⟨pevs ++ evs2, by simp only [plot_all, hq, h2], ?_⟩
    intro r hr
    rcases List.mem_cons.mp hr with h3 | h3
    · exact ⟨pevs, by rw [h3]; exact hq, fun e he => List.mem_append_left _ he⟩
    · obtain ⟨pevs2, hp2, hsub⟩ := hprop r h3
      exact ⟨pevs2, hp2, fun e he => List.mem_append_right _ (hsub e he)⟩

/-- A successful `max` fetch makes `get_inception_info` succeed. -/
theorem get_inception_ok {fetch : Fetch} (daysSince : String → Int) {t : String}
    {sr : Series} (hf : fetch t "max" "1d" = .ok sr) :
    ∃ out, get_inception_info fetch daysSince t = .ok out := by
  cases sr with
  | nil =>
    simp only [get_inception_info, hf]
    exact ⟨_, rfl⟩
  | cons r rs =>
    simp only [get_inception_info, hf]
    exact ⟨_, rfl⟩

/-- C9: in a CLI run with valid inputs where every fetch succeeds and the
fetch for period `p` returns an empty series, the program exits 0 (no
exception is raised), prints the informational no-data message for `p`,
and still processes every requested period: each period's full event
trace appears in the run's events. -/
theorem cli_empty_series (fetch : Fetch) (daysSince : String → Int)
    (ticker output : String) (noOutputDir : Bool) (periods : List String)
    (interval p : String)
    (hpv : ∀ q ∈ periods, q ∈ valid_periods) (hivv : interval ∈ valid_intervals)
    (hall : ∀ q ∈ periods, ∃ sr, fetch (ensure_to_suffix ticker) q interval = .ok sr)
    (hmax : ∃ sr, fetch (ensure_to_suffix ticker) "max" "1d" = .ok sr)
    (hp : p ∈ periods)
    (hempty : fetch (ensure_to_suffix ticker) p interval = .ok []) :
    (runCli fetch daysSince ticker output noOutputDir periods interval).exitCode = 0 ∧
    CliEvent.printed ("No data available for " ++ ensure_to_suffix ticker ++
        " with period " ++ p ++ " and interval " ++ interval) ∈
      (runCli fetch daysSince ticker output noOutputDir periods interval).events ∧
    ∀ q ∈ periods, ∃ pevs,
      plot_price_volume fetch (ensure_to_suffix ticker) q interval
        (if noOutputDir then none else some output) = .ok pevs ∧
      ∀ e ∈ pevs,
        e ∈ (runCli fetch daysSince ticker output noOutputDir periods interval).events := by
  have hvl := validate_list_ok periods hpv
  have hvi := validate_interval_ok hivv
  set od := (if noOutputDir then none else some output : Option String) with hod
  obtain ⟨evs, hplots, heach⟩ :=
    plot_all_ok fetch (ensure_to_suffix ticker) interval od periods
      (fun q hq => (hall q hq).elim (fun sr hsr => plot_ok_of_fetch_ok od hsr))
  obtain ⟨sr, hmaxf⟩ := hmax
  obtain ⟨out, hic⟩ := get_inception_ok daysSince hmaxf
  obtain ⟨ievs, inc, days⟩ := out
  have hmain : mainCli fetch daysSince ticker od periods interval =
      .ok (evs ++ ievs ++ print_inception_info (ensure_to_suffix ticker) inc days) := by
    simp only [mainCli, hplots, hic]
  have hrun : runCli fetch daysSince ticker output noOutputDir periods interval =
      ⟨0, evs ++ ievs ++ print_inception_info (ensure_to_suffix ticker) inc days⟩ := by
    simp only [runCli, hvl, hvi, ← hod, hmain]
  refine ⟨by rw [hrun], ?_, ?_⟩
  · obtain ⟨pevs, hpq, hsub⟩ := heach p hp
    have hpcomp : plot_price_volume fetch (ensure_to_suffix ticker) p interval od =
        .ok [CliEvent.fetched (ensure_to_suffix ticker) p interval,
          CliEvent.printed ("No data available for " ++ ensure_to_suffix ticker ++
            " with period " ++ p ++ " and interval " ++ interval)] := by
      simp [plot_price_volume, hempty]
    rw [hpcomp] at hpq
    injection hpq with h1
    rw [hrun]
    apply List.mem_append_left
    apply List.mem_append_left
    apply hsub
    rw [← h1]
    simp
  · intro q hq
    obtain ⟨pevs, hpq, hsub⟩ := heach q hq
    refine ⟨pevs, hpq, fun e he => ?_⟩
    rw [hrun]
    exact List.mem_append_left _ (List.mem_append_left _ (hsub e he))

/-- Concrete instance of `cli_empty_series`: ticker XEQT, period 1y,
interval 1d against an always-empty data source. -/
theorem cli_empty_series_witness :
    (runCli fetchEmpty (fun _ => 0) "XEQT" "./output" false ["1y"] "1d").exitCode = 0 ∧
    CliEvent.printed ("No data available for " ++ ensure_to_suffix "XEQT" ++
        " with period " ++ "1y" ++ " and interval " ++ "1d") ∈
      (runCli fetchEmpty (fun _ => 0) "XEQT" "./output" false ["1y"] "1d").events ∧
    ∀ q ∈ ["1y"], ∃ pevs,
      plot_price_volume fetchEmpty (ensure_to_suffix "XEQT") q "1d"
        (if false then none else some "./output") = .ok pevs ∧
      ∀ e ∈ pevs,
        e ∈ (runCli fetchEmpty (fun _ => 0) "XEQT" "./output" false ["1y"] "1d").events :=
  cli_empty_series fetchEmpty (fun _ => 0) "XEQT" "./output" false ["1y"] "1d" "1y"
    (by decide) (by decide) (fun q _ => ⟨[], rfl⟩) ⟨[], rfl⟩ (by decide) rfl

/-- C10: the argparse default for `--periods` is `["1y", "3y", "5y"]`, and
"3y" is not an accepted period; a run over the default periods therefore
fails validation with a `ValueError` — exit code 1, only the stderr line
in its trace — before any fetch happens or any chart is written, for every
ticker, interval and data source. -/
theorem default_periods_invalid (fetch : Fetch) (daysSince : String → Int)
    (ticker output : String) (noOutputDir : Bool) (interval : String) :
    default_periods = ["1y", "3y", "5y"] ∧
    "3y" ∉ valid_periods ∧
    runCli fetch daysSince ticker output noOutputDir default_periods interval =
      ⟨1, [.errPrinted ("Error: " ++ ("Invalid period: " ++ "3y" ++
        ". Valid periods are: " ++
        "1d, 5d, 1mo, 3mo, 6mo, 1y, 2y, 5y, 10y, ytd, max"))]⟩ ∧
    (∀ a b c, CliEvent.fetched a b c ∉
      (runCli fetch daysSince ticker output noOutputDir default_periods interval).events) ∧
    (∀ f, CliEvent.savedPlot f ∉
      (runCli fetch daysSince ticker output noOutputDir default_periods interval).events) := by
  have hm : "3y" ∉ valid_periods := by decide
  have h1 : validate_period "1y" = .ok "1y" := rfl
  have h3 : validate_period "3y" = .error ("Invalid period: " ++ "3y" ++
      ". Valid periods are: " ++ "1d, 5d, 1mo, 3mo, 6mo, 1y, 2y, 5y, 10y, ytd, max") := by
    simp only [validate_period, if_neg hm, periods_joined]
  have hvl : validate_list validate_period default_periods =
      .error ("Invalid period: " ++ "3y" ++
        ". Valid periods are: " ++ "1d, 5d, 1mo, 3mo, 6mo, 1y, 2y, 5y, 10y, ytd, max") := by
    simp only [default_periods, validate_list, h1, h3]
  have hrun : runCli fetch daysSince ticker output noOutputDir default_periods interval =
      ⟨1, [.errPrinted ("Error: " ++ ("Invalid period: " ++ "3y" ++
        ". Valid periods are: " ++
        "1d, 5d, 1mo, 3mo, 6mo, 1y, 2y, 5y, 10y, ytd, max"))]⟩ := by
    simp only [runCli, hvl]
  refine ⟨rfl, hm, hrun, ?_, ?_⟩
  · intro a b c
    rw [hrun]
    simp
  · intro f
    rw [hrun]
    simp

end StockPerf
